import Mathlib

/-!
Verification of the `pulsegen-client` schedule compiler and waveform
synthesizer (`pulsegen_client/runner`): a shallow embedding of the pulse
sampler, phase tracker and measure/arrange/render layout engine, with
theorems checking the natural-language specification against the code.

Modelling conventions:
* Python floats are modelled as exact rationals (`ℚ`); the special value
  `math.inf` is modelled by `⊤` in `EQ := WithTop ℚ` (the code never
  produces `-inf` or `NaN` on the paths the claims exercise, and the spec
  declares NaN durations fatal).
* Transcendental functions (`cos`, `sin`) are noncomputable over `ℝ`, so
  the embedding is parametric in a `SampleEnv` providing `cos`/`sin`
  *in cycles*: `E.cos x` stands for `cos (2·π·x)`, matching the code's
  `np.cos(math.tau * x)`.  Every claim settled here is independent of the
  actual values of `cos`/`sin` beyond `cos 0 = 1`, `sin 0 = 0`.
* Complex numbers are pairs `ℚ × ℚ` with explicit arithmetic
  (Lean's `Complex` is real-based and noncomputable).
* Python exceptions (`ValueError` from `max()` on an empty sequence and
  from `np.gradient` on arrays shorter than 2, `IndexError` from list
  indexing) are modelled with `Except PyErr`.
-/

/-- Extended rationals modelling Python floats together with `math.inf`.
The code never produces `-inf` or `NaN` on the embedded paths. -/
inductive EQ where
  | fin (q : ℚ)
  | inf
deriving DecidableEq

def EQ.le : EQ → EQ → Prop
  | _, .inf => True
  | .inf, .fin _ => False
  | .fin x, .fin y => x ≤ y

instance : LE EQ := ⟨EQ.le⟩

instance : LT EQ := ⟨fun a b => ¬b ≤ a⟩

instance (a b : EQ) : Decidable (a ≤ b) :=
  match a, b with
  | .fin x, .fin y => inferInstanceAs (Decidable (x ≤ y))
  | .fin _, .inf => .isTrue trivial
  | .inf, .inf => .isTrue trivial
  | .inf, .fin _ => .isFalse id

instance (a b : EQ) : Decidable (a < b) :=
  inferInstanceAs (Decidable (¬b ≤ a))

/-- Python's `max` on two comparable floats. -/
def emax (a b : EQ) : EQ := if a ≤ b then b else a

/-- Python's `min` on two comparable floats. -/
def emin (a b : EQ) : EQ := if a ≤ b then a else b

/-- `a - m` for an extended minuend and a finite subtrahend (`inf - m = inf`). -/
def esub (a : EQ) (m : ℚ) : EQ :=
  match a with
  | .fin x => .fin (x - m)
  | .inf => .inf

/-- `a + m` with a finite addend (`inf + m = inf`). -/
def eaddQ (a : EQ) (m : ℚ) : EQ :=
  match a with
  | .fin x => .fin (x + m)
  | .inf => .inf

/-- `a + b` on extended rationals (`inf` absorbs; `-inf` does not occur). -/
def eadd (a b : EQ) : EQ :=
  match a, b with
  | .fin x, .fin y => .fin (x + y)
  | _, _ => .inf

/-- `a - b` with an extended subtrahend.  In every embedded code path the
subtrahend is finite (stack frontiers and measured durations are finite);
the `inf` case is unreachable and returns `0`. -/
def esubE (a b : EQ) : EQ :=
  match b with
  | .fin m => esub a m
  | .inf => .fin 0

/-- `a * n` for a natural multiplier (used by `Repeat` with `count ≥ 1`). -/
def emulNat (a : EQ) (n : ℕ) : EQ :=
  match a with
  | .fin x => .fin (x * n)
  | .inf => .inf

/-- `a * q` for a finite rational multiplier. -/
def emulQ (a : EQ) (q : ℚ) : EQ :=
  match a with
  | .fin x => .fin (x * q)
  | .inf => .inf

/-- `a / n` for a natural divisor (`inf / n = inf`; divisor is ≥ 1 in all uses). -/
def edivN (a : EQ) (n : ℕ) : EQ :=
  match a with
  | .fin x => .fin (x / n)
  | .inf => .inf

/-- `a / q` for a finite rational divisor. -/
def edivQ (a : EQ) (q : ℚ) : EQ :=
  match a with
  | .fin x => .fin (x / q)
  | .inf => .inf

/-- Collapse an extended rational to `ℚ`; every value reaching this point in
the embedded driver flow is finite, `inf` collapses to `0`. -/
def toQ (a : EQ) : ℚ :=
  match a with
  | .fin q => q
  | .inf => 0

/-- Python's `sum` of a list of (extended) floats. -/
def esum (l : List EQ) : EQ := l.foldl eadd (.fin 0)

/-- Complex numbers as rational pairs (re, im). -/
abbrev Cq := ℚ × ℚ

def cadd (a b : Cq) : Cq := (a.1 + b.1, a.2 + b.2)

def cmul (a b : Cq) : Cq := (a.1 * b.1 - a.2 * b.2, a.1 * b.2 + a.2 * b.1)

/-- Multiplication of a complex value by a rational scalar. -/
def csmul (s : ℚ) (a : Cq) : Cq := (s * a.1, s * a.2)

/-- Python's banker's rounding (`round`): round half to even. -/
def roundHalfEven (q : ℚ) : ℤ :=
  let f := ⌊q⌋
  let r := q - f
  if r < 1/2 then f
  else if 1/2 < r then f + 1
  else if f % 2 = 0 then f else f + 1

/-- Python slice normalization for `xs[a:b]` on a list of length `n`
(step 1): a negative endpoint is shifted by `n`, then clamped to `[0, n]`.
Returns the effective `(lo, hi)` bounds; the slice is `[lo, hi)` when
`lo < hi` and empty otherwise. -/
def pySliceBound (n : ℕ) (i : ℤ) : ℕ :=
  (min (if i < 0 then i + n else i) (n : ℤ)).toNat

def pySlice (n : ℕ) (a b : ℤ) : ℕ × ℕ := (pySliceBound n a, pySliceBound n b)

/-- Python list indexing `xs[i]` with an `Int` index: negative indices count
from the end; out-of-range raises `IndexError` (modelled as `none`). -/
def pyIndex {α : Type} (xs : List α) (i : ℤ) : Option α :=
  let j := if i < 0 then i + xs.length else i
  if 0 ≤ j ∧ j < xs.length then xs.get? j.toNat else none

/-- `2 ** k` for an integer exponent, as an exact rational. -/
def pow2z (k : ℤ) : ℚ :=
  if 0 ≤ k then ((2 : ℚ) ^ k.toNat) else ((2 : ℚ) ^ (-k).toNat)⁻¹

/-- `np.gradient` of a one-dimensional array (second-order central
differences with first-order one-sided differences at the boundaries, unit
spacing).  `np.gradient` raises `ValueError` for arrays shorter than 2;
callers of this definition guard that case. -/
def npGradient (v : List ℚ) : List ℚ :=
  (List.range v.length).map (fun j =>
    if j = 0 then v.getD 1 0 - v.getD 0 0
    else if j = v.length - 1 then v.getD j 0 - v.getD (j - 1) 0
    else (v.getD (j + 1) 0 - v.getD (j - 1) 0) / 2)

/-- Python exception kinds raised by the runner. -/
inductive PyErr
  | valueError
  | indexError
deriving DecidableEq, Repr

/-! ## Shapes and envelopes (`runner/_shape_impl.py`)

`PulseShape.sample` evaluates a unit shape; Hann/Triangle/Interpolated are
built on `np.cos` / `scipy` interpolation, which are transcendental, so a
shape is embedded as its (abstract) per-point sampling function.  The
claims settled here never depend on a concrete shape's values. -/

abbrev PulseShape := ℚ → ℚ

/-- Sampling environment: the transcendental carrier functions, in cycles.
`E.cos x` stands for `cos (2·π·x)` and `E.sin x` for `sin (2·π·x)`,
matching the code's `np.cos (math.tau * x)` / `cmath.rect`. -/
structure SampleEnv where
  cos : ℚ → ℚ
  sin : ℚ → ℚ

/-- `Envelope` from `runner/_shape_impl.py`: optional unit shape plus
width and plateau. -/
structure Envelope where
  shape : Option PulseShape
  width : ℚ
  plateau : ℚ

/-- `Envelope.duration = width + plateau`. -/
def Envelope.duration (e : Envelope) : ℚ := e.width + e.plateau

/-- `Envelope.sample`, per sample point (`np.piecewise` is elementwise).
With `shape = None` the code returns `np.ones_like(t)`: the constant 1 at
*every* `t`.  Otherwise three half-open regions (rise, plateau, fall) and
0 elsewhere. -/
def Envelope.sample (e : Envelope) (t : ℚ) : ℚ :=
  match e.shape with
  | none => 1
  | some f =>
    let t1 := e.width / 2
    let t2 := e.width / 2 + e.plateau
    let t3 := e.width + e.plateau
    if 0 ≤ t ∧ t < t1 then f ((t - t1) / e.width)
    else if t1 ≤ t ∧ t < t2 then 1
    else if t2 ≤ t ∧ t < t3 then f ((t - t2) / e.width)
    else 0

/-! ## Pulse lists (`runner/_pulse_list.py`) -/

/-- `PulseItem`: one timed, phased pulse. -/
structure PulseItem where
  time : ℚ
  envelope : Envelope
  amp : Cq
  dragAmp : Cq
  freqG : ℚ
  freqL : ℚ
  delay : ℚ

abbrev PulseList := List PulseItem

/-- `PulseList.add_pulse`: skip when `amp == 0`; otherwise append one item
with `amp = cmath.rect(amp, tau*phase)` and `drag_amp = 1j * amp * drag_coef`. -/
def PulseList.addPulse (E : SampleEnv) (items : PulseList) (env : Envelope)
    (freqG freqL time phase amp dragCoef : ℚ) : PulseList :=
  if amp = 0 then items
  else
    let camp : Cq := (amp * E.cos phase, amp * E.sin phase)
    let cdrag : Cq := csmul dragCoef (cmul ((0 : ℚ), (1 : ℚ)) camp)
    items ++ [{ time := time, envelope := env, amp := camp, dragAmp := cdrag,
                freqG := freqG, freqL := freqL, delay := 0 }]

/-- `PulseList.delay`: shift every item's `time` and `delay` accumulator. -/
def PulseList.delayAll (items : PulseList) (d : ℚ) : PulseList :=
  items.map (fun it => { it with time := it.time + d, delay := it.delay + d })

/-- The sample times of the slice `t[lo : lo+L] - aligned_time`. -/
def sliceTimes (lo L : ℕ) (dt aligned : ℚ) : List ℚ :=
  (List.range L).map (fun j => ((lo + j : ℕ) : ℚ) * dt - aligned)

/-- Elementwise `y[lo : lo + vs.length] += vs` with Python slice-assignment
semantics (the bounds are already normalized and `lo + vs.length ≤ y.length`
whenever `vs` came from the matching slice of `t`). -/
def addAt (y : List Cq) (lo : ℕ) (vs : List Cq) : List Cq :=
  y.enum.map (fun p =>
    if lo ≤ p.1 ∧ p.1 < lo + vs.length then cadd p.2 (vs.getD (p.1 - lo) (0, 0)) else p.2)

/-- One iteration of the loop in `PulseList.sample`: the contribution of a
single item to the buffer `y`.  `t[i_start:i_end]` and `y[i_start:i_end]`
follow Python slice normalization (`pySlice`); `np.gradient` raises
`ValueError` when the slice has fewer than 2 elements. -/
def applyItem (E : SampleEnv) (length : ℕ) (sampleRate snap : ℚ)
    (y : List Cq) (item : PulseItem) : Except PyErr (List Cq) :=
  let dt := 1 / sampleRate
  let aligned := ((roundHalfEven (item.time * snap) : ℚ)) / snap
  let i0 : ℤ := ⌊aligned * sampleRate⌋
  let i1 : ℤ := ⌈(aligned + item.envelope.duration) * sampleRate⌉
  let lo := (pySlice length i0 i1).1
  let hi := (pySlice length i0 i1).2
  let L := hi - lo
  if L < 2 then .error .valueError
  else
    let ts := sliceTimes lo L dt aligned
    let envY := ts.map item.envelope.sample
    let envDY := (npGradient envY).map (· * sampleRate)
    let phaseShift := item.freqG * (i0 * dt - item.delay)
    let phases := ts.map (fun t => (item.freqG + item.freqL) * t + phaseShift)
    let vs := (List.range L).map (fun j =>
      cmul (cadd (csmul (envY.getD j 0) item.amp) (csmul (envDY.getD j 0) item.dragAmp))
        (E.cos (phases.getD j 0), E.sin (phases.getD j 0)))
    .ok (addAt y lo vs)

/-- `PulseList.sample(length, sample_rate, align_level)`: accumulate every
item's contribution into a zeroed complex buffer. -/
def PulseList.sample (E : SampleEnv) (items : PulseList) (length : ℕ)
    (sampleRate : ℚ) (alignLevel : ℤ) : Except PyErr (List Cq) :=
  let snap := sampleRate * pow2z (-alignLevel)
  items.foldlM (applyItem E length sampleRate snap) (List.replicate length ((0 : ℚ), (0 : ℚ)))

/-- The spec's pseudocode clips the window `[i0, i1)` to `[0, length]`
(claim C1 describes this clipping); stated here for comparison with the
code's `pySlice` behaviour. -/
def specClipWindow (length : ℕ) (i0 i1 : ℤ) : ℤ × ℤ :=
  (max 0 (min i0 length), max 0 (min i1 length))

/-! ## Phase tracker (`runner/phase_tracker.py`) -/

/-- `_ChannelStatus`: per-channel running frequency/phase state. -/
structure ChannelStatus where
  baseFreq : ℚ
  deltaFreq : ℚ
  phase : ℚ
  pulses : PulseList

/-- `total_freq = base_freq + delta_freq`. -/
def ChannelStatus.totalFreq (c : ChannelStatus) : ℚ := c.baseFreq + c.deltaFreq

/-- `shift_freq(Δ, t)`: `phase -= Δ·t; delta_freq += Δ`. -/
def ChannelStatus.shiftFreq (c : ChannelStatus) (delta time : ℚ) : ChannelStatus :=
  { c with phase := c.phase - delta * time, deltaFreq := c.deltaFreq + delta }

/-- `set_freq(f, t)`: `phase -= (f − delta_freq)·t; delta_freq = f`. -/
def ChannelStatus.setFreq (c : ChannelStatus) (freq time : ℚ) : ChannelStatus :=
  { c with phase := c.phase - (freq - c.deltaFreq) * time, deltaFreq := freq }

/-- `shift_phase(Δ)`: `phase += Δ`. -/
def ChannelStatus.shiftPhase (c : ChannelStatus) (delta : ℚ) : ChannelStatus :=
  { c with phase := c.phase + delta }

/-- `set_phase(p, t)`: `phase = p − delta_freq·t`. -/
def ChannelStatus.setPhase (c : ChannelStatus) (phase time : ℚ) : ChannelStatus :=
  { c with phase := phase - c.deltaFreq * time }

/-- `_ChannelStatus.swap_phase(a, b, t)` (static): with
`diff = a.total_freq − b.total_freq`, the simultaneous assignment
`a.phase, b.phase = b.phase − diff·t, a.phase + diff·t`.  Returns the
updated pair `(a, b)`. -/
def ChannelStatus.swapPhase (a b : ChannelStatus) (time : ℚ) :
    ChannelStatus × ChannelStatus :=
  let diff := a.totalFreq - b.totalFreq
  ({ a with phase := b.phase - diff * time },
   { b with phase := a.phase + diff * time })

/-- Tracker state: one `_ChannelStatus` per channel. -/
abbrev Tracker := List ChannelStatus

/-- `self.channels[i]`, raising `IndexError` out of range (channel ids in
the embedded elements are naturals, so the negative-index branch of Python
indexing does not arise here). -/
def pyGet {α : Type} (xs : List α) (i : ℕ) : Except PyErr α :=
  match xs.get? i with
  | some x => .ok x
  | none => .error .indexError

/-- `PhaseTracker.play`: append to channel `ch`'s pulse list with
`freq_global = total_freq(ch)` and `phase = channel.phase + phase_local`. -/
def Tracker.play (E : SampleEnv) (tr : Tracker) (ch : ℕ) (env : Envelope)
    (freq phase amp dragCoef time : ℚ) : Except PyErr Tracker := do
  let c ← pyGet tr ch
  let pulses := PulseList.addPulse E c.pulses env c.totalFreq freq time (c.phase + phase) amp dragCoef
  .ok (tr.set ch { c with pulses := pulses })

def Tracker.shiftFreq (tr : Tracker) (ch : ℕ) (delta time : ℚ) : Except PyErr Tracker := do
  let c ← pyGet tr ch
  .ok (tr.set ch (c.shiftFreq delta time))

def Tracker.setFreq (tr : Tracker) (ch : ℕ) (freq time : ℚ) : Except PyErr Tracker := do
  let c ← pyGet tr ch
  .ok (tr.set ch (c.setFreq freq time))

def Tracker.shiftPhase (tr : Tracker) (ch : ℕ) (delta : ℚ) : Except PyErr Tracker := do
  let c ← pyGet tr ch
  .ok (tr.set ch (c.shiftPhase delta))

def Tracker.setPhase (tr : Tracker) (ch : ℕ) (phase time : ℚ) : Except PyErr Tracker := do
  let c ← pyGet tr ch
  .ok (tr.set ch (c.setPhase phase time))

/-- `PhaseTracker.swap_phase(a, b, t)`.  When `a = b` Python passes the
same object twice and the simultaneous assignment leaves the phase
unchanged (`diff = 0`); the two `List.set` writes below coincide then. -/
def Tracker.swapPhase (tr : Tracker) (a b : ℕ) (time : ℚ) : Except PyErr Tracker := do
  let ca ← pyGet tr a
  let cb ← pyGet tr b
  let p := ChannelStatus.swapPhase ca cb time
  .ok ((tr.set a p.1).set b p.2)

/-! ## Schedule elements (`schedule.py`)

Layout attributes common to every element.  `margin` is already converted
to a pair; `duration` is `Optional[float]`; `max_duration` defaults to
`math.inf` (hence extended); channel ids are naturals (the request format
uses list indices).  `Grid` children `(column, span, element)` are kept as
parallel lists (`zip` truncates to the shorter list, matching Python's
`zip`); negative column/span indices are outside this model. -/

inductive Align
  | alignEnd
  | alignStart
  | alignCenter
  | alignStretch
deriving DecidableEq

inductive ArrangeDirection
  | backwards
  | forwards
deriving DecidableEq

inductive GridLengthUnit
  | second
  | auto
  | star
deriving DecidableEq

/-- `GridLength { value, unit }`.  `GridLength.auto()` stores `value = nan`
in Python, but that value is never read for non-`star`, non-`second`
columns; it is `0` here. -/
structure GridLength where
  value : ℚ
  unit : GridLengthUnit
deriving DecidableEq

def GridLength.star (v : ℚ) : GridLength := ⟨v, .star⟩

structure Attrs where
  marginLo : ℚ
  marginHi : ℚ
  alignment : Align
  visibility : Bool
  duration : Option ℚ
  maxDuration : EQ
  minDuration : ℚ
deriving DecidableEq

/-- The attrs defaults of `schedule.Element`. -/
def Attrs.dflt : Attrs :=
  { marginLo := 0, marginHi := 0, alignment := .alignEnd, visibility := true,
    duration := none, maxDuration := .inf, minDuration := 0 }

inductive Element
  | play (channelId : ℕ) (amplitude : ℚ) (shapeId : ℤ) (width plateau dragCoef frequency phase : ℚ)
      (flexible : Bool) (attrs : Attrs)
  | shiftPhase (channelId : ℕ) (phase : ℚ) (attrs : Attrs)
  | setPhase (channelId : ℕ) (phase : ℚ) (attrs : Attrs)
  | shiftFreq (channelId : ℕ) (frequency : ℚ) (attrs : Attrs)
  | setFreq (channelId : ℕ) (frequency : ℚ) (attrs : Attrs)
  | swapPhase (channelId1 channelId2 : ℕ) (attrs : Attrs)
  | barrier (channelIds : List ℕ) (attrs : Attrs)
  | repeatE (child : Element) (count : ℕ) (spacing : ℚ) (attrs : Attrs)
  | stack (children : List Element) (direction : ArrangeDirection) (attrs : Attrs)
  | absolute (times : List ℚ) (children : List Element) (attrs : Attrs)
  | grid (gcolumns gspans : List ℕ) (children : List Element) (columns : List GridLength)
      (attrs : Attrs)

def Element.attrs : Element → Attrs
  | .play _ _ _ _ _ _ _ _ _ a => a
  | .shiftPhase _ _ a => a
  | .setPhase _ _ a => a
  | .shiftFreq _ _ a => a
  | .setFreq _ _ a => a
  | .swapPhase _ _ a => a
  | .barrier _ a => a
  | .repeatE _ _ _ a => a
  | .stack _ _ a => a
  | .absolute _ _ a => a
  | .grid _ _ _ _ a => a

mutual
/-- The channel set of a layout manager (`create_layout_manager`): Python
uses `set`s; only membership and emptiness matter downstream, so lists with
`dedup` are used. -/
def Element.channels : Element → List ℕ
  | .play ch _ _ _ _ _ _ _ _ _ => [ch]
  | .shiftPhase ch _ _ => [ch]
  | .setPhase ch _ _ => [ch]
  | .shiftFreq ch _ _ => [ch]
  | .setFreq ch _ _ => [ch]
  | .swapPhase c1 c2 _ => if c1 = c2 then [c1] else [c1, c2]
  | .barrier ids _ => ids.dedup
  | .repeatE c _ _ _ => c.channels
  | .stack cs _ _ => channelsList cs
  | .absolute _ cs _ => channelsList cs
  | .grid _ _ cs _ _ => channelsList cs

def channelsList : List Element → List ℕ
  | [] => []
  | e :: es => (e.channels ++ channelsList es).dedup
end

/-! ## Layout engine (`runner/_layout.py`) -/

/-- Measured layout node: the per-node state set by `measure` plus the
measured children (source order) and, for `Grid`, `_min_column_width`.
`elem` is the element *after* measure — `GridLayoutManager.measure_override`
appends to the aliased `element.columns` list, so measure can update the
input element. -/
inductive MNode
  | mk (elem : Element) (override desired unclipped : EQ) (kids : List MNode)
      (gridCols : List EQ)

def MNode.elem : MNode → Element
  | .mk e _ _ _ _ _ => e

/-- The raw value returned by `measure_override`. -/
def MNode.override : MNode → EQ
  | .mk _ o _ _ _ _ => o

def MNode.desired : MNode → EQ
  | .mk _ _ d _ _ _ => d

def MNode.unclipped : MNode → EQ
  | .mk _ _ _ u _ _ => u

def MNode.kids : MNode → List MNode
  | .mk _ _ _ _ k _ => k

def MNode.gridCols : MNode → List EQ
  | .mk _ _ _ _ _ g => g

/-- Python's `duration or default`: `or` takes the default both for `None`
and for the falsy float `0.0`. -/
def pyOrDuration (d : Option ℚ) (dflt : EQ) : EQ :=
  match d with
  | none => dflt
  | some q => if q = 0 then dflt else .fin q

/-- `LayoutManager._minmax`: effective `(min_duration, max_duration)`. -/
def Attrs.minmax (a : Attrs) : EQ × EQ :=
  let maxd := emax (emin (pyOrDuration a.duration .inf) a.maxDuration) (.fin a.minDuration)
  let mind := emax (emin (pyOrDuration a.duration (.fin 0)) a.maxDuration) (.fin a.minDuration)
  (mind, maxd)

/-- The payload a `measure_override` produces: its return value, the
measured children, the grid scratch column widths, and the (possibly
updated) element. -/
structure MPayload where
  measured : EQ
  kids : List MNode
  gridCols : List EQ
  elem : Element

/-- The content box both passes hand to their overrides:
`clamp(max(v − margin, 0), [min_d, max_d])`. -/
def contentClamp (a : Attrs) (v : EQ) : EQ :=
  emax (emin (emax (esub v (a.marginLo + a.marginHi)) (.fin 0)) a.minmax.2) a.minmax.1

/-- `LayoutManager.measure`: the common margin/duration wrapper around
`measure_override`. -/
def measureWrap (a : Attrs) (A : EQ) (f : EQ → Except PyErr MPayload) :
    Except PyErr MNode := do
  let margin := a.marginLo + a.marginHi
  let mm := a.minmax
  let p ← f (contentClamp a A)
  let desiredRaw := eaddQ (emax (emin p.measured mm.2) mm.1) margin
  .ok (.mk p.elem p.measured (emax (emin desiredRaw A) (.fin 0))
        (emax (eaddQ p.measured margin) (.fin 0)) p.kids p.gridCols)

/-- `StackLayoutManager.LayoutHelper` state: a plain float when the stack's
channel set is empty, otherwise a `defaultdict(float)` keyed by channel.
The table records insertion order like a Python dict; only `max` over the
values and emptiness are observable. -/
inductive StackSt
  | scalar (v : EQ)
  | table (m : List (ℕ × EQ))

def tableGet (m : List (ℕ × EQ)) (c : ℕ) : EQ :=
  match m.find? (fun p => p.1 = c) with
  | some p => p.2
  | none => .fin 0

/-- `defaultdict` access inserts a missing key with the default `0.0`. -/
def tableTouch (m : List (ℕ × EQ)) (c : ℕ) : List (ℕ × EQ) :=
  if (m.find? (fun p => p.1 = c)).isSome then m else m ++ [(c, .fin 0)]

def tableSet (m : List (ℕ × EQ)) (c : ℕ) (v : EQ) : List (ℕ × EQ) :=
  if (m.find? (fun p => p.1 = c)).isSome then
    m.map (fun p => if p.1 = c then (c, v) else p)
  else m ++ [(c, v)]

def tableMax (m : List (ℕ × EQ)) (hd : EQ) : EQ :=
  m.foldl (fun acc q => emax acc q.2) hd

/-- `LayoutHelper.used_time(channels)`: `max()` over the table values when
`channels` is empty — raising `ValueError` when the table is still empty —
and the max of the per-channel entries otherwise (`defaultdict` access
inserts missing keys). -/
def StackSt.usedTime (st : StackSt) (channels : List ℕ) : Except PyErr (EQ × StackSt) :=
  match st with
  | .scalar v => .ok (v, .scalar v)
  | .table m =>
    match m, channels with
    | [], [] => .error .valueError
    | p :: rest, [] => .ok (tableMax rest p.2, .table m)
    | _, c :: rest =>
      let m' := (c :: rest).foldl tableTouch m
      .ok ((rest.map (tableGet m')).foldl emax (tableGet m' c), .table m')

/-- `LayoutHelper.update_used(channels, duration)`: empty child channel
sets target the whole stack's channel set. -/
def StackSt.updateUsed (st : StackSt) (channels stackChannels : List ℕ) (v : EQ) : StackSt :=
  match st with
  | .scalar _ => .scalar v
  | .table m =>
    let targets := if channels.isEmpty then stackChannels else channels
    .table (targets.foldl (fun acc c => tableSet acc c v) m)

/-- `LayoutHelper.total_time()`: `max()` over the table values (raises on
an empty table, which measure cannot reach when the stack has channels). -/
def StackSt.total : StackSt → Except PyErr EQ
  | .scalar v => .ok v
  | .table [] => .error .valueError
  | .table (p :: rest) => .ok (tableMax rest p.2)

/-- Initial grid column sizes: the `Second` columns' values, else 0. -/
def gridColsInit (columns : List GridLength) : List EQ :=
  columns.map (fun c => if c.unit = .second then .fin c.value else .fin 0)

def dfltCol : GridLength := ⟨0, .star⟩

/-- Grid measurement pass 1: span-≤1 children grow their (non-`Second`)
column to their desired duration. -/
def gridPass1 (columns : List GridLength) (meta : List (ℕ × ℕ × EQ))
    (colsizes : List EQ) : List EQ :=
  meta.foldl (fun cz p =>
    let ac := min p.1 (cz.length - 1)
    let asp := min p.2.1 (cz.length - ac)
    if 1 < asp then cz
    else if (columns.getD ac dfltCol).unit = .second then cz
    else cz.set ac (emax (cz.getD ac (.fin 0)) p.2.2)) colsizes

/-- `GridLayoutManager._expand_column_width`: the inner water-filling loop.
`done` holds the already-visited `(index, ratio)` pairs `cols[0..i]`;
`pending` the rest; the loop breaks (and reassigns the visited star
columns) as soon as the equalized ratio drops below the next ratio. -/
def expandLoop (columns : List GridLength) (widths : List EQ)
    (done pending : List (ℕ × EQ)) (stars : ℚ) (remaining : EQ) : List EQ :=
  match pending with
  | [] => widths
  | p :: rest =>
    let nextR : EQ :=
      match rest with
      | [] => .inf
      | q :: _ => q.2
    let stars' := stars + (columns.getD p.1 dfltCol).value
    let remaining' := eadd remaining (widths.getD p.1 (.fin 0))
    let newR := edivQ remaining' stars'
    if newR < nextR then
      (done ++ [p]).foldl
        (fun w q => w.set q.1 (emulQ newR (columns.getD q.1 dfltCol).value)) widths
    else expandLoop columns widths (done ++ [p]) rest stars' remaining'

/-- `GridLayoutManager._expand_column_width(column_width, column, span,
remaining)`: collect the star columns in the span (stopping at the end of
`column_width`), sort them by `width/value` ratio (Python's stable sort),
then water-fill. -/
def expandColumnWidth (columns : List GridLength) (widths : List EQ)
    (column span : ℕ) (remaining : EQ) : List EQ :=
  let idxs := ((List.range span).map (column + ·)).filter
    (fun i => i < widths.length && (columns.getD i dfltCol).unit = .star)
  let cols := idxs.map (fun i => (i, edivQ (widths.getD i (.fin 0)) (columns.getD i dfltCol).value))
  expandLoop columns widths [] (cols.mergeSort (fun p q => p.2 ≤ q.2)) 0 remaining

/-- Grid measurement pass 2: multi-span children distribute their excess
over `Star` columns (water-filling) or, lacking stars, evenly over `Auto`
columns. -/
def gridPass2 (columns : List GridLength) (meta : List (ℕ × ℕ × EQ))
    (colsizes : List EQ) : List EQ :=
  meta.foldl (fun cz p =>
    let ac := min p.1 (cz.length - 1)
    let asp := min p.2.1 (cz.length - ac)
    if asp = 1 then cz
    else
      let colsize := esum ((cz.drop ac).take asp)
      if p.2.2 < colsize then cz
      else
        let span := (List.range asp).map (ac + ·)
        let nStar := span.countP (fun i => (columns.getD i dfltCol).unit = .star)
        if nStar = 0 then
          let nAuto := span.countP (fun i => (columns.getD i dfltCol).unit = .auto)
          if nAuto = 0 then cz
          else
            let inc := edivN (esubE p.2.2 colsize) nAuto
            span.foldl (fun w i =>
              if (columns.getD i dfltCol).unit = .auto then w.set i (eadd (w.getD i (.fin 0)) inc)
              else w) cz
        else expandColumnWidth columns cz ac asp (esubE p.2.2 colsize)) colsizes

/-- Grid children metadata `(column, span, desired)` — the `zip` of the
layout children with the element's `(column, span)` entries. -/
def gridMeta (gcolumns gspans : List ℕ) (kids : List MNode) : List (ℕ × ℕ × EQ) :=
  List.zip gcolumns (List.zip gspans (kids.map (·.desired)))

mutual
/-- `LayoutManager.measure` composed with each manager's
`measure_override` (`create_layout_manager` dispatch). -/
def measureElem (e : Element) (A : EQ) : Except PyErr MNode :=
  match e with
  | .play _ _ _ w p _ _ _ fl a =>
    measureWrap a A (fun _B => .ok ⟨if fl then .fin w else .fin (w + p), [], [], e⟩)
  | .shiftPhase _ _ a => measureWrap a A (fun _B => .ok ⟨.fin 0, [], [], e⟩)
  | .setPhase _ _ a => measureWrap a A (fun _B => .ok ⟨.fin 0, [], [], e⟩)
  | .shiftFreq _ _ a => measureWrap a A (fun _B => .ok ⟨.fin 0, [], [], e⟩)
  | .setFreq _ _ a => measureWrap a A (fun _B => .ok ⟨.fin 0, [], [], e⟩)
  | .swapPhase _ _ a => measureWrap a A (fun _B => .ok ⟨.fin 0, [], [], e⟩)
  | .barrier _ a => measureWrap a A (fun _B => .ok ⟨.fin 0, [], [], e⟩)
  | .repeatE c n s a =>
    measureWrap a A (fun B =>
      if n = 0 then .ok ⟨.fin 0, [], [], .repeatE c n s a⟩
      else do
        let mc ← measureElem c (edivN (esub B (s * ((n : ℚ) - 1))) n)
        .ok ⟨eaddQ (emulNat mc.desired n) (s * ((n : ℚ) - 1)), [mc], [],
             .repeatE mc.elem n s a⟩)
  | .stack cs d a =>
    measureWrap a A (fun B => do
      let chs := channelsList cs
      let st0 : StackSt := if chs.isEmpty then .scalar (.fin 0) else .table []
      let r ← (match d with
        | .forwards => measureStackF cs B chs st0
        | .backwards => measureStackB cs B chs st0)
      let total ← r.2.total
      .ok ⟨total, r.1, [], .stack (r.1.map (·.elem)) d a⟩)
  | .absolute ts cs a =>
    measureWrap a A (fun B => do
      let kids ← measureSameBudget cs B
      let maxT := (List.zip ts kids).foldl (fun acc p => emax acc (eaddQ p.2.desired p.1)) (.fin 0)
      .ok ⟨maxT, kids, [], .absolute ts (kids.map (·.elem)) a⟩)
  | .grid gcols gspans cs columns a =>
    measureWrap a A (fun B => do
      let columns1 := if columns.isEmpty then [GridLength.star 1] else columns
      let kids ← measureSameBudget cs B
      let meta := gridMeta gcols gspans kids
      let colsizes := gridPass2 columns1 meta (gridPass1 columns1 meta (gridColsInit columns1))
      .ok ⟨esum colsizes, kids, colsizes, .grid gcols gspans (kids.map (·.elem)) columns1 a⟩)

/-- Stack measurement, `Forwards`: children first-to-last. -/
def measureStackF (cs : List Element) (B : EQ) (stackChannels : List ℕ) (st : StackSt) :
    Except PyErr (List MNode × StackSt) :=
  match cs with
  | [] => .ok ([], st)
  | c :: rest => do
    let u ← st.usedTime c.channels
    let mc ← measureElem c (esubE B u.1)
    let st2 := u.2.updateUsed c.channels stackChannels (eadd mc.desired u.1)
    let r ← measureStackF rest B stackChannels st2
    .ok (mc :: r.1, r.2)

/-- Stack measurement, `Backwards`: the iteration order is `reversed(cs)`,
so the tail of the list is processed before the head; results are listed
in source order. -/
def measureStackB (cs : List Element) (B : EQ) (stackChannels : List ℕ) (st : StackSt) :
    Except PyErr (List MNode × StackSt) :=
  match cs with
  | [] => .ok ([], st)
  | c :: rest => do
    let r ← measureStackB rest B stackChannels st
    let u ← r.2.usedTime c.channels
    let mc ← measureElem c (esubE B u.1)
    let st2 := u.2.updateUsed c.channels stackChannels (eadd mc.desired u.1)
    .ok (mc :: r.1, st2)

/-- `Absolute`/`Grid` measurement: every child measured against the same
content budget. -/
def measureSameBudget (cs : List Element) (B : EQ) : Except PyErr (List MNode) :=
  match cs with
  | [] => .ok []
  | c :: rest => do
    let mc ← measureElem c B
    let r ← measureSameBudget rest B
    .ok (mc :: r)
end

/-- Arranged layout node: `actual_time` / `actual_duration` plus arranged
children in source order. -/
inductive ANode
  | mk (elem : Element) (desired actualTime actualDuration : EQ) (kids : List ANode)

def ANode.elem : ANode → Element
  | .mk e _ _ _ _ => e

def ANode.desired : ANode → EQ
  | .mk _ d _ _ _ => d

def ANode.actualTime : ANode → EQ
  | .mk _ _ t _ _ => t

def ANode.actualDuration : ANode → EQ
  | .mk _ _ _ d _ => d

def ANode.kids : ANode → List ANode
  | .mk _ _ _ _ k => k

def colStartsAux : List EQ → EQ → List EQ
  | [], _ => []
  | x :: rest, acc => acc :: colStartsAux rest (eadd acc x)

/-- `colstarts[i] = colstarts[i-1] + colsizes[i-1]`, starting at `[0.0]`. -/
def colStarts (l : List EQ) : List EQ :=
  match l with
  | [] => [.fin 0]
  | _ => colStartsAux l (.fin 0)

mutual
/-- `LayoutManager.arrange` composed with each manager's
`arrange_override`.  `time` and `final_duration` come from the parent;
`actual_time` is stored relative to the parent's content box. -/
def arrangeNode : MNode → EQ → EQ → Except PyErr ANode
  | .mk elem _over des _unc kids gcols, time, finalDuration => do
    let a := elem.attrs
    let contentTime := eaddQ time a.marginLo
    let contentDur := contentClamp a finalDuration
    let r ← (match elem, kids with
      | .play _ _ _ w p _ _ _ fl _, _ =>
        .ok ((if fl then contentDur else .fin (w + p)), ([] : List ANode))
      | .shiftPhase _ _ _, _ => .ok (.fin 0, [])
      | .setPhase _ _ _, _ => .ok (.fin 0, [])
      | .shiftFreq _ _ _, _ => .ok (.fin 0, [])
      | .setFreq _ _ _, _ => .ok (.fin 0, [])
      | .swapPhase _ _ _, _ => .ok (.fin 0, [])
      | .barrier _ _, _ => .ok (.fin 0, [])
      | .repeatE _ n s _, mkids =>
        if n = 0 then .ok (.fin 0, [])
        else
          match mkids with
          | [] => .ok (contentDur, [])
          | mc :: _ => do
            let ca ← arrangeNode mc (.fin 0) (edivN (esub contentDur (s * ((n : ℚ) - 1))) n)
            .ok (contentDur, [ca])
      | .stack cs d _, mkids => do
        let chs := channelsList cs
        let st0 : StackSt := if chs.isEmpty then .scalar (.fin 0) else .table []
        let r ← (match d with
          | .forwards => arrangeStackF mkids contentDur chs st0
          | .backwards => arrangeStackB mkids contentDur chs st0)
        .ok (contentDur, r.1)
      | .absolute ts _ _, mkids => do
        let anks ← arrangeAbs ts mkids
        .ok (contentDur, anks)
      | .grid gcidx gsp _ columns _, mkids => do
        let colsizes := expandColumnWidth columns gcols 0 gcols.length
          (esubE contentDur (esum gcols))
        let starts := colStarts colsizes
        let anks ← arrangeGrid columns colsizes starts gcidx gsp mkids
        .ok (contentDur, anks))
    .ok (.mk elem des contentTime r.1 r.2)

/-- Stack arrangement, `Forwards`. -/
def arrangeStackF (ms : List MNode) (total : EQ) (stackChannels : List ℕ) (st : StackSt) :
    Except PyErr (List ANode × StackSt) :=
  match ms with
  | [] => .ok ([], st)
  | mc :: rest => do
    let u ← st.usedTime mc.elem.channels
    let childDur := mc.desired
    let ca ← arrangeNode mc u.1 childDur
    let st2 := u.2.updateUsed mc.elem.channels stackChannels (eadd childDur u.1)
    let r ← arrangeStackF rest total stackChannels st2
    .ok (ca :: r.1, r.2)

/-- Stack arrangement, `Backwards`: iteration order is `reversed(children)`
(the list tail is processed first); each child's end aligns at
`total − used`. -/
def arrangeStackB (ms : List MNode) (total : EQ) (stackChannels : List ℕ) (st : StackSt) :
    Except PyErr (List ANode × StackSt) :=
  match ms with
  | [] => .ok ([], st)
  | mc :: rest => do
    let r ← arrangeStackB rest total stackChannels st
    let u ← r.2.usedTime mc.elem.channels
    let childDur := mc.desired
    let ca ← arrangeNode mc (esubE (esubE total u.1) childDur) childDur
    let st2 := u.2.updateUsed mc.elem.channels stackChannels (eadd childDur u.1)
    .ok (ca :: r.1, st2)

/-- `Absolute` arrangement: each child at its explicit time with its
desired duration. -/
def arrangeAbs (ts : List ℚ) (ms : List MNode) : Except PyErr (List ANode) :=
  match ts, ms with
  | t :: tr, mc :: rest => do
    let ca ← arrangeNode mc (.fin t) mc.desired
    let r ← arrangeAbs tr rest
    .ok (ca :: r)
  | _, _ => .ok []

/-- `Grid` arrangement: place each child inside its column span according
to its alignment. -/
def arrangeGrid (columns : List GridLength) (colsizes starts : List EQ)
    (gcols gspans : List ℕ) (ms : List MNode) : Except PyErr (List ANode) :=
  match gcols, gspans, ms with
  | c :: cr, sp :: spr, mc :: rest => do
    let ac := min c (colsizes.length - 1)
    let asp := min sp (colsizes.length - ac)
    let spanDur := esum ((colsizes.drop ac).take asp)
    let align := mc.elem.attrs.alignment
    let childDur := if align ≠ .alignStretch then mc.desired else spanDur
    let actual := emin childDur spanDur
    let base := starts.getD ac (.fin 0)
    let childTime :=
      match align with
      | .alignStart => base
      | .alignEnd => eadd base (esubE spanDur actual)
      | .alignCenter => eadd base (edivN (esubE spanDur actual) 2)
      | .alignStretch => base
    let ca ← arrangeNode mc childTime actual
    let r ← arrangeGrid columns colsizes starts cr spr rest
    .ok (ca :: r)
  | _, _, _ => .ok []
end


mutual
/-- `LayoutManager.render`: skip invisible nodes, then dispatch
`render_override` at `time + actual_time`. -/
def renderNode (E : SampleEnv) (shapes : List PulseShape) :
    ANode → EQ → Tracker → Except PyErr Tracker
  | .mk elem _des atime adur kids, time, tr =>
    if elem.attrs.visibility = false then .ok tr
    else
      let t := eadd time atime
      match elem, kids with
      | .play ch amp sid w p dc fr ph fl _, _ => do
        let shape ← (if sid = -1 then .ok none
          else match pyIndex shapes sid with
            | some s => .ok (some s)
            | none => .error PyErr.indexError)
        let plat := if fl then toQ adur - w else p
        Tracker.play E tr ch ⟨shape, w, plat⟩ fr ph amp dc (toQ t)
      | .shiftFreq ch f _, _ => tr.shiftFreq ch f (toQ t)
      | .setFreq ch f _, _ => tr.setFreq ch f (toQ t)
      | .shiftPhase ch f _, _ => tr.shiftPhase ch f
      | .setPhase ch f _, _ => tr.setPhase ch f (toQ t)
      | .swapPhase c1 c2 _, _ => tr.swapPhase c1 c2 (toQ t)
      | .barrier _ _, _ => .ok tr
      | .repeatE _ n s _, rkids =>
        if n = 0 then .ok tr
        else
          match rkids with
          | [] => .ok tr
          | ca :: _ => renderRepeat E shapes ca n s t tr
      | .stack _ _ _, rkids => renderKids E shapes rkids t tr
      | .absolute _ _ _, rkids => renderKids E shapes rkids t tr
      | .grid _ _ _ _ _, rkids => renderKids E shapes rkids t tr

/-- `RepeatLayoutManager.render_override`: render the single child `n`
times, advancing by `child.actual_duration + spacing` each iteration. -/
def renderRepeat (E : SampleEnv) (shapes : List PulseShape) (ca : ANode)
    (n : ℕ) (s : ℚ) (time : EQ) (tr : Tracker) : Except PyErr Tracker :=
  match n with
  | 0 => .ok tr
  | k + 1 => do
    let tr2 ← renderNode E shapes ca time tr
    renderRepeat E shapes ca k s (eaddQ (eadd time ca.actualDuration) s) tr2

/-- Containers render their children in source order, all at the parent's
content time. -/
def renderKids (E : SampleEnv) (shapes : List PulseShape) :
    List ANode → EQ → Tracker → Except PyErr Tracker
  | [], _, tr => .ok tr
  | ca :: rest, time, tr => do
    let tr2 ← renderNode E shapes ca time tr
    renderKids E shapes rest time tr2
end

/-! ## Driver (`runner/_runner.py`) -/

/-- `ChannelInfo` fields used by `run_schedule` (the name only keys the
output dictionary and is dropped; outputs are listed in channel order). -/
structure Channel where
  baseFreq : ℚ
  sampleRate : ℚ
  delay : ℚ
  length : ℕ
  alignLevel : ℤ

/-- The schedule request, with shapes already materialized
(`get_shape`) into their sampling functions. -/
structure Request where
  channels : List Channel
  shapes : List PulseShape
  schedule : Element

/-- Per-channel delay + sampling + I/Q split (step 6 of the driver). -/
def sampleChannels (E : SampleEnv) :
    List (Channel × PulseList) → Except PyErr (List (List ℚ × List ℚ))
  | [] => .ok []
  | (c, pl) :: rest => do
    let y ← PulseList.sample E (PulseList.delayAll pl c.delay) c.length c.sampleRate c.alignLevel
    let r ← sampleChannels E rest
    .ok ((y.map (·.1), y.map (·.2)) :: r)

/-- `run_schedule(request)`: build the tracker, `measure(inf)`,
`arrange(0, desired)`, `render(0, tracker, shapes)`, then delay and sample
every channel's pulse list. -/
def runSchedule (E : SampleEnv) (req : Request) : Except PyErr (List (List ℚ × List ℚ)) := do
  let tracker0 : Tracker := req.channels.map
    (fun c => { baseFreq := c.baseFreq, deltaFreq := 0, phase := 0, pulses := [] })
  let m ← measureElem req.schedule .inf
  let an ← arrangeNode m (.fin 0) m.desired
  let tr ← renderNode E req.shapes an (.fin 0) tracker0
  sampleChannels E (List.zip req.channels (tr.map (·.pulses)))

/-- `Grid.columns` of an element (empty for non-grids). -/
def Element.gridColumns : Element → List GridLength
  | .grid _ _ _ c _ => c
  | _ => []

/-! ## Concrete fixtures used by counterexamples and witnesses -/

/-- A rectangular pulse wholly before `t = 0`: as after a negative channel
delay.  `time = −5`, rectangular envelope of duration 2. -/
def c1Item : PulseItem :=
  { time := -5, envelope := ⟨none, 2, 0⟩, amp := (1, 0), dragAmp := (0, 0),
    freqG := 0, freqL := 0, delay := 0 }

/-- A rectangular (`shape = None`) envelope of width 1, plateau 0. -/
def c2Env : Envelope := ⟨none, 1, 0⟩

/-- A `Play` of natural duration 1 with the explicit `duration = 0.0`. -/
def c3Elem : Element :=
  .play 0 1 (-1) 1 0 0 0 0 false
    { marginLo := 0, marginHi := 0, alignment := .alignEnd, visibility := true,
      duration := some 0, maxDuration := .inf, minDuration := 0 }

/-- A `Grid` with no children and an empty `columns` list. -/
def c4Grid : Element := .grid [] [] [] [] Attrs.dflt

/-- One channel: `sample_rate = 1`, `length = 4`, no delay, `align_level = 0`. -/
def chan1 : Channel := { baseFreq := 0, sampleRate := 1, delay := 0, length := 4, alignLevel := 0 }

/-- A `Play` whose `shape_id` is −2 — neither −1 nor a valid index in the
spec's sense. -/
def c5Play : Element := .play 0 1 (-2) 2 0 0 0 0 false Attrs.dflt

/-- Request with two shapes and a single `Play` referring to shape −2. -/
def c5Req (f g : PulseShape) : Request := ⟨[chan1], [f, g], c5Play⟩

/-- A rectangular `Play` on channel 0, width 2. -/
def pl0 : Element := .play 0 1 (-1) 2 0 0 0 0 false Attrs.dflt

/-- Backwards stack whose arrangement-first child (the *last* list element)
is a channel-less `Barrier`. -/
def c10ErrStack : Element := .stack [pl0, .barrier [] Attrs.dflt] .backwards Attrs.dflt

/-- The same children with the `Barrier` moved so a channel-carrying child
is visited first. -/
def c10OkStack : Element := .stack [.barrier [] Attrs.dflt, pl0] .backwards Attrs.dflt

/-! ## Helper lemmas: `EQ` order and arithmetic evaluation -/

theorem eqle_refl (a : EQ) : a ≤ a := by
  cases a with
  | fin q => exact le_refl q
  | inf => trivial

theorem eqle_trans {a b c : EQ} (h1 : a ≤ b) (h2 : b ≤ c) : a ≤ c := by
  cases a with
  | inf =>
    cases b with
    | inf =>
      cases c with
      | inf => trivial
      | fin z => exact h2
    | fin y => exact h1.elim
  | fin x =>
    cases c with
    | inf => trivial
    | fin z =>
      cases b with
      | inf => exact h2.elim
      | fin y => exact le_trans (α := ℚ) h1 h2

theorem fin_le_fin {x y : ℚ} : (EQ.fin x ≤ EQ.fin y) ↔ x ≤ y := Iff.rfl

theorem eqle_inf (a : EQ) : a ≤ EQ.inf := by
  cases a with
  | fin q => trivial
  | inf => trivial

theorem eqle_total (a b : EQ) : a ≤ b ∨ b ≤ a := by
  cases a with
  | inf => exact Or.inr (eqle_inf b)
  | fin x =>
    cases b with
    | inf => exact Or.inl trivial
    | fin y => exact le_total x y

theorem le_emax_left (a b : EQ) : a ≤ emax a b := by
  unfold emax; split
  · assumption
  · exact eqle_refl a

theorem le_emax_right (a b : EQ) : b ≤ emax a b := by
  unfold emax; split
  · exact eqle_refl b
  · rcases eqle_total a b with h | h
    · exact absurd h (by assumption)
    · exact h

theorem emax_le {a b c : EQ} (h1 : a ≤ c) (h2 : b ≤ c) : emax a b ≤ c := by
  unfold emax; split <;> assumption

theorem emin_le_left (a b : EQ) : emin a b ≤ a := by
  unfold emin; split
  · exact eqle_refl a
  · rcases eqle_total a b with h | h
    · exact absurd h (by assumption)
    · exact h

theorem emin_le_right (a b : EQ) : emin a b ≤ b := by
  unfold emin; split
  · assumption
  · exact eqle_refl b

theorem le_emin {a b c : EQ} (h1 : c ≤ a) (h2 : c ≤ b) : c ≤ emin a b := by
  unfold emin; split <;> assumption

theorem emax_fin_le_self {d : ℚ} {x : EQ} (h : x ≤ .fin d) : emax x (.fin d) = .fin d := by
  unfold emax; split
  · rfl
  · exact absurd h (by assumption)

theorem inf_le_fin {x : ℚ} : (EQ.inf ≤ EQ.fin x) ↔ False := Iff.rfl

theorem fin_lt_fin {x y : ℚ} : (EQ.fin x < EQ.fin y) ↔ x < y := by
  show ¬(y ≤ x) ↔ x < y
  exact not_le

theorem fin_lt_inf {x : ℚ} : (EQ.fin x < EQ.inf) ↔ True := by
  show ¬(EQ.inf ≤ EQ.fin x) ↔ True
  simp [inf_le_fin]

theorem inf_lt {a : EQ} : (EQ.inf < a) ↔ False := by
  show ¬(a ≤ EQ.inf) ↔ False
  simp [eqle_inf]

/-- Evaluation lemmas for `Except` bind (the do blocks of the embedding). -/
theorem bind_ok {α β : Type} (a : α) (f : α → Except PyErr β) :
    (Except.ok a : Except PyErr α) >>= f = f a := rfl

theorem bind_err {α β : Type} (e : PyErr) (f : α → Except PyErr β) :
    (Except.error e : Except PyErr α) >>= f = .error e := rfl

/-! ## Claim theorems -/

/-- C2 counterexample: the claim says `Envelope.sample` returns 0 outside
`[0, width+plateau)` when `shape = None`; but at `t = 2` — outside `[0, 1)`
because the interval's upper end `width + plateau = 1` is at most 2 — the
code (`np.ones_like`) returns 1, not 0. -/
theorem c2_counterexample :
    c2Env.sample 2 = 1 ∧ c2Env.width + c2Env.plateau ≤ 2 := by
  refine ⟨rfl, ?_⟩
  simp only [c2Env]
  norm_num

/-- C2 (amended): for every Envelope with `shape = None`,
`Envelope.sample` returns the constant 1 at *every* sample time `t`
(`np.ones_like(t)`); the restriction of a rectangular pulse to
`[0, width+plateau)` is enforced by the caller's sampling window, not by
`Envelope.sample`. -/
theorem c2_shape_none_sample (w p t : ℚ) : Envelope.sample ⟨none, w, p⟩ t = 1 := rfl

/-- C6: `shift_freq(Δ, t)` preserves the instantaneous carrier phase at
time `t` (`phase' + total_freq'·t = phase + total_freq·t`), sets
`delta_freq' = delta_freq + Δ`, leaves `base_freq` and the pulse list
unchanged, and for any other time `u` the instantaneous phase grows from
the preserved value at rate `total_freq + Δ = base_freq + delta_freq'`. -/
theorem c6_shift_freq_phase_continuity (c : ChannelStatus) (Δ t u : ℚ) :
    (c.shiftFreq Δ t).phase + (c.shiftFreq Δ t).totalFreq * t
        = c.phase + c.totalFreq * t ∧
    (c.shiftFreq Δ t).deltaFreq = c.deltaFreq + Δ ∧
    (c.shiftFreq Δ t).baseFreq = c.baseFreq ∧
    (c.shiftFreq Δ t).pulses = c.pulses ∧
    (c.shiftFreq Δ t).phase + (c.shiftFreq Δ t).totalFreq * u
        = (c.phase + c.totalFreq * t) + (c.totalFreq + Δ) * (u - t) := by
  refine ⟨?_, rfl, rfl, rfl, ?_⟩ <;>
    simp only [ChannelStatus.shiftFreq, ChannelStatus.totalFreq] <;> ring

/-- C7: `swap_phase(a, b, t)` swaps the two channels' instantaneous
carrier phases at `t` — after the operation, channel `a`'s instantaneous
phase at `t` equals the pre-operation instantaneous phase of `b` and
vice versa — and changes nothing but the two `phase` fields. -/
theorem c7_swap_phase_instantaneous (a b : ChannelStatus) (t : ℚ) :
    ((ChannelStatus.swapPhase a b t).1.phase
        + (ChannelStatus.swapPhase a b t).1.totalFreq * t
      = b.phase + b.totalFreq * t) ∧
    ((ChannelStatus.swapPhase a b t).2.phase
        + (ChannelStatus.swapPhase a b t).2.totalFreq * t
      = a.phase + a.totalFreq * t) ∧
    (ChannelStatus.swapPhase a b t).1.baseFreq = a.baseFreq ∧
    (ChannelStatus.swapPhase a b t).1.deltaFreq = a.deltaFreq ∧
    (ChannelStatus.swapPhase a b t).1.pulses = a.pulses ∧
    (ChannelStatus.swapPhase a b t).2.baseFreq = b.baseFreq ∧
    (ChannelStatus.swapPhase a b t).2.deltaFreq = b.deltaFreq ∧
    (ChannelStatus.swapPhase a b t).2.pulses = b.pulses := by
  refine ⟨?_, ?_, rfl, rfl, rfl, rfl, rfl, rfl⟩ <;>
    simp only [ChannelStatus.swapPhase, ChannelStatus.totalFreq] <;> ring

/-- The wrapper invariant behind C8: whatever `measure_override` returns,
`measure` clips the desired duration into `[0, max(available, 0)]` and the
unclipped duration to `≥ 0`. -/
theorem measureWrap_bounds {a : Attrs} {A : EQ} {f : EQ → Except PyErr MPayload}
    {m : MNode} (h : measureWrap a A f = .ok m) :
    EQ.fin 0 ≤ m.desired ∧ m.desired ≤ emax A (.fin 0) ∧ EQ.fin 0 ≤ m.unclipped := by
  unfold measureWrap at h
  cases hf : f (contentClamp a A) with
  | error e => rw [hf] at h; exact absurd h (by simp [bind_err])
  | ok p =>
    rw [hf, bind_ok] at h
    have hm : m = .mk p.elem p.measured
        (emax (emin (eaddQ (emax (emin p.measured a.minmax.2) a.minmax.1)
          (a.marginLo + a.marginHi)) A) (.fin 0))
        (emax (eaddQ p.measured (a.marginLo + a.marginHi)) (.fin 0)) p.kids p.gridCols := by
      cases h; rfl
    subst hm
    refine ⟨le_emax_right _ _, ?_, le_emax_right _ _⟩
    exact emax_le (eqle_trans (emin_le_right _ A) (le_emax_left A (.fin 0)))
      (le_emax_right A (.fin 0))

/-- C8: for every layout element and every available duration (negative
and `inf` included), a completed `measure` leaves
`0 ≤ desired_duration ≤ max(available, 0)` and `unclipped_duration ≥ 0`;
the dispatch covers every node type (`Play`, the phase/frequency ops,
`Barrier`, `Repeat`, `Stack`, `Absolute`, `Grid`). -/
theorem c8_measure_bounds (e : Element) (A : EQ) (m : MNode)
    (h : measureElem e A = .ok m) :
    EQ.fin 0 ≤ m.desired ∧ m.desired ≤ emax A (.fin 0) ∧ EQ.fin 0 ≤ m.unclipped := by
  cases e <;> (simp only [measureElem] at h; exact measureWrap_bounds h)

/-- C8 witness: the bounds at a concrete measure
(`pl0` measured against an infinite budget: desired = unclipped = 2). -/
theorem c8_measure_bounds_witness :
    EQ.fin 0 ≤ (MNode.mk pl0 (.fin 2) (.fin 2) (.fin 2) [] []).desired ∧
    (MNode.mk pl0 (.fin 2) (.fin 2) (.fin 2) [] []).desired ≤ emax .inf (.fin 0) ∧
    EQ.fin 0 ≤ (MNode.mk pl0 (.fin 2) (.fin 2) (.fin 2) [] []).unclipped :=
  c8_measure_bounds pl0 .inf _ (by
    norm_num [measureElem, measureWrap, contentClamp, Attrs.minmax, pyOrDuration,
      esub, eaddQ, emax, emin, Element.attrs, Attrs.dflt, pl0, bind_ok,
      eqle_inf, inf_le_fin, fin_le_fin])

/-- C3 counterexample: on an element with the explicit `duration = 0.0`
(within `[min_duration, max_duration] = [0, inf]`) and natural content
duration 1, the claim forces the clamped content — hence the desired
duration, with zero margins and infinite budget — to be 0; the code
(`self.element.duration or math.inf` treats `0.0` as unset) measures it
to 1. -/
theorem c3_counterexample :
    c3Elem.attrs.duration = some 0 ∧
    (measureElem c3Elem .inf).map MNode.desired = .ok (.fin 1) := by
  refine ⟨rfl, ?_⟩
  norm_num [measureElem, measureWrap, contentClamp, Attrs.minmax, pyOrDuration,
    esub, eaddQ, emax, emin, Element.attrs, c3Elem, bind_ok,
    eqle_inf, inf_le_fin, fin_le_fin, Except.map, MNode.desired]

/-- C3 (amended): `_minmax` computes
`min_d = clamp(duration or 0, [min_duration, max_duration])` and
`max_d = clamp(duration or inf, [min_duration, max_duration])`, where
Python's `or` treats an explicit `duration = 0.0` exactly like an unset
duration; consequently for an explicitly set *nonzero* duration `d` within
`[min_duration, max_duration]`, the measured content duration after
clamping equals `d` regardless of the child's natural duration, and the
desired duration is `d + margin` clipped to `[0, available]`. -/
theorem c3_duration_pinning :
    (∀ (a : Attrs), a.duration = some 0 →
      a.minmax = (Attrs.minmax { a with duration := none })) ∧
    (∀ (a : Attrs) (A : EQ) (f : EQ → Except PyErr MPayload) (m : MNode) (d : ℚ),
      a.duration = some d → d ≠ 0 → a.minDuration ≤ d → EQ.fin d ≤ a.maxDuration →
      measureWrap a A f = .ok m →
      emax (emin m.override a.minmax.2) a.minmax.1 = .fin d ∧
      m.desired = emax (emin (.fin (d + (a.marginLo + a.marginHi))) A) (.fin 0)) := by
  constructor
  · intro a h
    simp [Attrs.minmax, pyOrDuration, h]
  · intro a A f m d hdur hd0 hmin hmax h
    have hmm : a.minmax = (.fin d, .fin d) := by
      simp only [Attrs.minmax, pyOrDuration, hdur, if_neg hd0]
      have h1 : emin (EQ.fin d) a.maxDuration = .fin d := by
        unfold emin; split
        · rfl
        · exact absurd hmax (by assumption)
      rw [h1]
      have h2 : emax (EQ.fin d) (.fin a.minDuration) = .fin d := by
        unfold emax; split
        · next hle => exact congrArg EQ.fin (le_antisymm hmin (fin_le_fin.mp hle))
        · rfl
      rw [h2]
    unfold measureWrap at h
    cases hf : f (contentClamp a A) with
    | error e => rw [hf] at h; exact absurd h (by simp [bind_err])
    | ok p =>
      rw [hf, bind_ok] at h
      have hm : m = .mk p.elem p.measured
          (emax (emin (eaddQ (emax (emin p.measured a.minmax.2) a.minmax.1)
            (a.marginLo + a.marginHi)) A) (.fin 0))
          (emax (eaddQ p.measured (a.marginLo + a.marginHi)) (.fin 0)) p.kids p.gridCols := by
        cases h; rfl
      subst hm
      have hclamp : emax (emin p.measured (EQ.fin d)) (EQ.fin d) = .fin d :=
        emax_fin_le_self (emin_le_right _ _)
      constructor
      · simp only [MNode.override, hmm, hclamp]
      · simp only [MNode.desired, hmm, hclamp]
        rfl

/-- C3 witness: pinning at `duration = 5`, margins 0, override value 3:
the clamped content is 5 and the desired duration is 5 (clipped to an
infinite budget). -/
theorem c3_duration_pinning_witness :
    emax (emin (MNode.mk pl0 (.fin 3) (.fin 5) (.fin 3) [] []).override
        (Attrs.minmax (Attrs.mk 0 0 .alignEnd true (some 5) .inf 0)).2)
      (Attrs.minmax (Attrs.mk 0 0 .alignEnd true (some 5) .inf 0)).1 = .fin 5 ∧
    (MNode.mk pl0 (.fin 3) (.fin 5) (.fin 3) [] []).desired
      = emax (emin (.fin (5 + ((0 : ℚ) + (0 : ℚ)))) EQ.inf) (.fin 0) :=
  c3_duration_pinning.2 (Attrs.mk 0 0 .alignEnd true (some 5) .inf 0)
    .inf (fun _ => .ok ⟨.fin 3, [], [], pl0⟩) _ 5 rfl (by norm_num) (by norm_num)
    (eqle_inf _)
    (by norm_num [measureWrap, contentClamp, Attrs.minmax, pyOrDuration, esub,
      eaddQ, emax, emin, bind_ok, eqle_inf, inf_le_fin, fin_le_fin])

/-- C4: measuring a `Grid` whose `columns` list is empty *does* modify the
request element — `measure_override` appends `Star(1)` to the aliased
`element.columns` list (`self._columns = element.columns`;
`self._columns.append(...)` mutates the frozen request element's list) —
contradicting the claim that the request is left unchanged. -/
theorem c4_grid_columns_mutated :
    (measureElem c4Grid .inf).map (fun m => m.elem.gridColumns)
        = .ok [GridLength.star 1] ∧
    c4Grid.gridColumns = [] := by
  refine ⟨?_, rfl⟩
  norm_num [measureElem, measureWrap, contentClamp, Attrs.minmax, pyOrDuration,
    esub, eaddQ, emax, emin, Element.attrs, c4Grid, Attrs.dflt, bind_ok,
    eqle_inf, inf_le_fin, fin_le_fin, measureSameBudget, gridMeta, gridColsInit,
    gridPass1, gridPass2, esum, eadd, Except.map, MNode.elem, Element.gridColumns,
    GridLength.star]

/-- A failing `measure_override` fails the whole `measure`. -/
theorem measureWrap_error {a : Attrs} {A : EQ} {f : EQ → Except PyErr MPayload}
    {er : PyErr} (h : f (contentClamp a A) = .error er) :
    measureWrap a A f = .error er := by
  unfold measureWrap
  rw [h]
  rfl

/-- Forwards stack measurement fails immediately when the first child has
no channels and the frontier table is still empty. -/
theorem measureStackF_err (c : Element) (rest : List Element) (B : EQ) (chs : List ℕ)
    (hc : c.channels = []) :
    measureStackF (c :: rest) B chs (.table []) = .error .valueError := by
  simp only [measureStackF, hc, StackSt.usedTime, bind_err]

/-- Backwards stack measurement fails when the *last* child — the first
one visited — has no channels and the frontier table is still empty. -/
theorem measureStackB_err (rs : List Element) (first : Element) (B : EQ) (chs : List ℕ)
    (hc : first.channels = []) :
    measureStackB (rs ++ [first]) B chs (.table []) = .error .valueError := by
  induction rs with
  | nil =>
    simp only [List.nil_append, measureStackB, hc, StackSt.usedTime, bind_ok, bind_err]
  | cons x rs ih =>
    simp only [List.cons_append, List.append_eq, measureStackB, ih, bind_err]

/-- Forwards stack arrangement: same failure as measurement. -/
theorem arrangeStackF_err (mc : MNode) (rest : List MNode) (total : EQ) (chs : List ℕ)
    (hc : mc.elem.channels = []) :
    arrangeStackF (mc :: rest) total chs (.table []) = .error .valueError := by
  simp only [arrangeStackF, hc, StackSt.usedTime, bind_err]

/-- Backwards stack arrangement: same failure as measurement. -/
theorem arrangeStackB_err (rs : List MNode) (mc : MNode) (total : EQ) (chs : List ℕ)
    (hc : mc.elem.channels = []) :
    arrangeStackB (rs ++ [mc]) total chs (.table []) = .error .valueError := by
  induction rs with
  | nil =>
    simp only [List.nil_append, arrangeStackB, hc, StackSt.usedTime, bind_ok, bind_err]
  | cons x rs ih =>
    simp only [List.cons_append, List.append_eq, arrangeStackB, ih, bind_err]

/-- C10: if a Stack's union channel set is non-empty and the first child
visited in arrangement order (the last list element under the default
`Backwards` direction) has an empty channel set, `used_time` takes `max()`
over the still-empty per-channel frontier map and both `measure` and
`arrange` raise `ValueError`; the same stack succeeds when a
channel-carrying child is visited first. -/
theorem c10_stack_channelless_first_raises :
    (∀ (cs : List Element) (d : ArrangeDirection) (a : Attrs) (A : EQ)
        (first : Element) (rest : List Element),
      (if d = .backwards then cs.reverse else cs) = first :: rest →
      first.channels = [] → channelsList cs ≠ [] →
      measureElem (.stack cs d a) A = .error .valueError) ∧
    (∀ (cs : List Element) (d : ArrangeDirection) (a : Attrs) (ov ds uc : EQ)
        (gcols : List EQ) (kids : List MNode) (k1 : MNode) (krest : List MNode)
        (time fd : EQ),
      (if d = .backwards then kids.reverse else kids) = k1 :: krest →
      k1.elem.channels = [] → channelsList cs ≠ [] →
      arrangeNode (.mk (.stack cs d a) ov ds uc kids gcols) time fd
        = .error .valueError) ∧
    measureElem c10ErrStack .inf = .error .valueError ∧
    (measureElem c10OkStack .inf).isOk = true := by
  have hempty : ∀ cs : List Element, channelsList cs ≠ [] →
      (channelsList cs).isEmpty = false := by
    intro cs h
    cases hc : channelsList cs with
    | nil => exact absurd hc h
    | cons _ _ => rfl
  have hmeas : ∀ (cs : List Element) (d : ArrangeDirection) (a : Attrs) (A : EQ)
      (first : Element) (rest : List Element),
      (if d = .backwards then cs.reverse else cs) = first :: rest →
      first.channels = [] → channelsList cs ≠ [] →
      measureElem (.stack cs d a) A = .error .valueError := by
    intro cs d a A first rest horder hc hchs
    simp only [measureElem]
    apply measureWrap_error
    cases d with
    | forwards =>
      simp only [reduceCtorEq, if_neg] at horder
      subst horder
      simp only [hempty _ hchs, Bool.false_eq_true, if_false,
        measureStackF_err _ _ _ _ hc, bind_err]
    | backwards =>
      simp only [if_pos] at horder
      have hcs : cs = rest.reverse ++ [first] := by
        have h2 := congrArg List.reverse horder
        simpa using h2
      subst hcs
      simp only [hempty _ hchs, Bool.false_eq_true, if_false,
        measureStackB_err _ _ _ _ hc, bind_err]
  have harr : ∀ (cs : List Element) (d : ArrangeDirection) (a : Attrs) (ov ds uc : EQ)
      (gcols : List EQ) (kids : List MNode) (k1 : MNode) (krest : List MNode)
      (time fd : EQ),
      (if d = .backwards then kids.reverse else kids) = k1 :: krest →
      k1.elem.channels = [] → channelsList cs ≠ [] →
      arrangeNode (.mk (.stack cs d a) ov ds uc kids gcols) time fd
        = .error .valueError := by
    intro cs d a ov ds uc gcols kids k1 krest time fd horder hc hchs
    simp only [arrangeNode]
    cases d with
    | forwards =>
      simp only [reduceCtorEq, if_neg] at horder
      subst horder
      simp only [hempty _ hchs, Bool.false_eq_true, if_false,
        arrangeStackF_err _ _ _ _ hc, bind_err]
    | backwards =>
      simp only [if_pos] at horder
      have hcs : kids = krest.reverse ++ [k1] := by
        have h2 := congrArg List.reverse horder
        simpa using h2
      subst hcs
      simp only [hempty _ hchs, Bool.false_eq_true, if_false,
        arrangeStackB_err _ _ _ _ hc, bind_err]
  refine ⟨hmeas, harr, ?_, ?_⟩
  · exact hmeas [pl0, .barrier [] Attrs.dflt] .backwards Attrs.dflt .inf
      (.barrier [] Attrs.dflt) [pl0] (by simp)
      (by simp [Element.channels, List.dedup])
      (by simp [channelsList, Element.channels, pl0, List.dedup])
  · norm_num [measureElem, measureWrap, contentClamp, Attrs.minmax, pyOrDuration,
      esub, esubE, eaddQ, eadd, emax, emin, Element.attrs, Element.channels,
      channelsList, Attrs.dflt, c10OkStack, pl0, bind_ok, bind_err, eqle_inf,
      inf_le_fin, fin_le_fin, measureStackB, StackSt.usedTime, StackSt.updateUsed,
      StackSt.total, tableGet, tableTouch, tableSet, tableMax, List.dedup,
      MNode.desired, MNode.elem, MNode.override, MNode.unclipped, MNode.kids,
      MNode.gridCols]
    rfl

/-- C10 witness: the raising branch applied to the concrete backwards
stack whose last child is a channel-less barrier. -/
theorem c10_stack_witness :
    measureElem (.stack [pl0, .barrier [] Attrs.dflt] .backwards Attrs.dflt) .inf
      = .error .valueError :=
  c10_stack_channelless_first_raises.1 [pl0, .barrier [] Attrs.dflt] .backwards
    Attrs.dflt .inf (.barrier [] Attrs.dflt) [pl0] (by simp)
    (by simp [Element.channels, List.dedup])
    (by simp [channelsList, Element.channels, pl0, List.dedup])

theorem eaddQ_zero (t : EQ) : eaddQ t 0 = t := by
  cases t <;> simp [eaddQ]

theorem eaddQ_eaddQ (t : EQ) (x y : ℚ) : eaddQ (eaddQ t x) y = eaddQ t (x + y) := by
  cases t <;> simp [eaddQ] <;> ring

theorem eadd_fin_right (t : EQ) (x : ℚ) : eadd t (.fin x) = eaddQ t x := by
  cases t <;> simp [eadd, eaddQ]

/-- The incremental render loop of `Repeat` in closed form: the `k`-th
copy of the child is rendered at offset `k · (child.actual_duration +
spacing)` from the repeat's content time. -/
theorem renderRepeat_closed (E : SampleEnv) (shapes : List PulseShape) (ca : ANode)
    (dq s : ℚ) (hD : ca.actualDuration = .fin dq) :
    ∀ (n : ℕ) (time : EQ) (tr : Tracker),
      renderRepeat E shapes ca n s time tr =
        (List.range n).foldlM (fun acc (k : ℕ) =>
          renderNode E shapes ca (eaddQ time ((dq + s) * (k : ℚ))) acc) tr := by
  intro n
  induction n with
  | zero =>
    intro time tr
    simp only [renderRepeat, List.range_zero, List.foldlM_nil]
    rfl
  | succ k ih =>
    intro time tr
    rw [renderRepeat, hD, List.range_succ_eq_map, List.foldlM_cons]
    have h0 : eaddQ time ((dq + s) * ((0 : ℕ) : ℚ)) = time := by
      norm_num [eaddQ_zero]
    rw [h0]
    simp only [List.foldlM_map]
    congr 1
    funext tr2
    have harg : eaddQ (eadd time (EQ.fin dq)) s = eaddQ time (dq + s) := by
      rw [eadd_fin_right, eaddQ_eaddQ]
    rw [harg, ih]
    congr 1
    funext acc j
    rw [eaddQ_eaddQ]
    have hj : (dq + s) + (dq + s) * (j : ℚ) = (dq + s) * ((Nat.succ j : ℕ) : ℚ) := by
      push_cast
      ring
    rw [hj]

/-- C9: `Repeat` semantics.  With `n ≥ 1`, `measure_override(A)` measures
the single child once against the budget `(A − s·(n−1))/n` and reports
`n·child.desired + s·(n−1)`; render emits the child `n` times at offsets
`k·(child.actual_duration + s)`, `k = 0..n−1`; with `n = 0` the Repeat
measures to content duration 0, measures no child, and renders nothing
(the tracker is returned unchanged). -/
theorem c9_repeat_semantics :
    (∀ (c : Element) (n : ℕ) (s : ℚ) (a : Attrs) (A : EQ) (mc : MNode),
      n ≠ 0 →
      measureElem c (edivN (esub (contentClamp a A) (s * ((n : ℚ) - 1))) n) = .ok mc →
      (measureElem (.repeatE c n s a) A).map (fun m => (m.override, m.kids))
        = .ok (eaddQ (emulNat mc.desired n) (s * ((n : ℚ) - 1)), [mc])) ∧
    (∀ (c : Element) (s : ℚ) (a : Attrs) (A : EQ),
      (measureElem (.repeatE c 0 s a) A).map (fun m => (m.override, m.kids))
        = .ok (.fin 0, [])) ∧
    (∀ (E : SampleEnv) (shapes : List PulseShape) (ca : ANode) (dq s : ℚ)
        (n : ℕ) (time : EQ) (tr : Tracker),
      ca.actualDuration = .fin dq →
      renderRepeat E shapes ca n s time tr =
        (List.range n).foldlM (fun acc (k : ℕ) =>
          renderNode E shapes ca (eaddQ time ((dq + s) * (k : ℚ))) acc) tr) ∧
    (∀ (E : SampleEnv) (shapes : List PulseShape) (c : Element) (s : ℚ) (a : Attrs)
        (ds atv ad : EQ) (kids : List ANode) (time : EQ) (tr : Tracker),
      a.visibility = true →
      renderNode E shapes (.mk (.repeatE c 0 s a) ds atv ad kids) time tr = .ok tr) := by
  refine ⟨?_, ?_, ?_, ?_⟩
  · intro c n s a A mc hn hmc
    simp only [measureElem, measureWrap, if_neg hn, hmc, bind_ok]
    rfl
  · intro c s a A
    simp only [measureElem, measureWrap]
    rfl
  · intro E shapes ca dq s n time tr hD
    exact renderRepeat_closed E shapes ca dq s hD n time tr
  · intro E shapes c s a ds atv ad kids time tr hv
    simp only [renderNode, Element.attrs, hv]
    rfl

/-- C9 witness: `Repeat(pl0, count=2, spacing=1)` measured against an
infinite budget: the child measures to desired 2 and the repeat reports
`2·2 + 1·(2−1) = 5`. -/
theorem c9_repeat_witness :
    (measureElem (.repeatE pl0 2 1 Attrs.dflt) .inf).map (fun m => (m.override, m.kids))
      = .ok (eaddQ
          (emulNat (MNode.mk pl0 (.fin 2) (.fin 2) (.fin 2) [] []).desired 2)
          ((1 : ℚ) * ((2 : ℚ) - 1)),
        [MNode.mk pl0 (.fin 2) (.fin 2) (.fin 2) [] []]) :=
  c9_repeat_semantics.1 pl0 2 1 Attrs.dflt .inf _ (by norm_num)
    (by norm_num [measureElem, measureWrap, contentClamp, Attrs.minmax, pyOrDuration,
      esub, eaddQ, emax, emin, edivN, Element.attrs, Attrs.dflt, pl0, bind_ok,
      eqle_inf, inf_le_fin, fin_le_fin])

set_option maxHeartbeats 1000000 in
/-- C1: the sampling loop does *not* clip `[i0, i1)` to `[0, length]` — it
relies on Python slicing, whose negative indices count from the end of the
buffer.  For a rectangular item at aligned time −5 (duration 2) in a
10-sample buffer, the claim's clipped window is empty (the item should be
skipped and contribute nothing anywhere), but the code writes the full
carrier value to samples 5 and 6 — near the *end* of the buffer; with the
concrete carrier `cos ≡ 1, sin ≡ 0` the written value is `1`, not `0`. -/
theorem c1_negative_time_wraps_to_buffer_end (E : SampleEnv) :
    PulseList.sample E [c1Item] 10 1 0 =
      .ok [(0, 0), (0, 0), (0, 0), (0, 0), (0, 0),
           (E.cos 0, E.sin 0), (E.cos 0, E.sin 0), (0, 0), (0, 0), (0, 0)] ∧
    specClipWindow 10 (-5) (-3) = (0, 0) ∧
    PulseList.sample (SampleEnv.mk (fun _ => 1) (fun _ => 0)) [c1Item] 10 1 0 =
      .ok [(0, 0), (0, 0), (0, 0), (0, 0), (0, 0),
           (1, 0), (1, 0), (0, 0), (0, 0), (0, 0)] := by
  have hc : ⌈(-3 : ℚ)⌉ = -3 := by norm_num [Int.ceil_eq_iff]
  have ht5 : Int.toNat 5 = 5 := rfl
  have ht7 : Int.toNat 7 = 7 := rfl
  refine ⟨?_, by decide, ?_⟩ <;>
    norm_num [PulseList.sample, applyItem, c1Item, pySlice, pySliceBound, roundHalfEven,
      pow2z, sliceTimes, npGradient, addAt, Envelope.sample, Envelope.duration,
      cadd, cmul, csmul, List.range_succ, hc, ht5, ht7, List.replicate, List.enum,
      List.enumFrom, Function.comp, List.foldlM]

set_option maxHeartbeats 2000000 in
/-- C5: a `Play` with `shape_id = −2` — neither −1 nor a valid shape index
in the spec's sense — does *not* fail the compile: Python's negative list
indexing silently resolves `shapes[-2]` to the first of two shapes, render
succeeds using that wrong shape, and a waveform result is returned. -/
theorem c5_negative_shape_id_succeeds (E : SampleEnv) (f g : PulseShape) :
    pyIndex [f, g] (-2) = some f ∧
    (runSchedule E (c5Req f g)).isOk = true := by
  refine ⟨rfl, ?_⟩
  have hc : ⌈(2 : ℚ)⌉ = 2 := by norm_num [Int.ceil_eq_iff]
  norm_num [runSchedule, c5Req, c5Play, chan1, measureElem, measureWrap, contentClamp,
    Attrs.minmax, pyOrDuration, esub, esubE, eaddQ, eadd, emax, emin, Element.attrs,
    Attrs.dflt, bind_ok, bind_err, eqle_inf, inf_le_fin, fin_le_fin, fin_lt_fin,
    arrangeNode, renderNode, Tracker.play, pyGet, PulseList.addPulse, toQ,
    pyIndex, sampleChannels, PulseList.delayAll, PulseList.sample, applyItem,
    List.zip, List.zipWith, pySlice, pySliceBound, roundHalfEven, pow2z, sliceTimes,
    npGradient, addAt, Envelope.sample, Envelope.duration, cadd, cmul, csmul,
    List.range_succ, hc, List.replicate, List.enum, List.enumFrom, Function.comp,
    List.foldlM, ChannelStatus.totalFreq, MNode.desired, MNode.elem, MNode.kids,
    MNode.override, MNode.unclipped, MNode.gridCols, ANode.actualDuration,
    ANode.actualTime, ANode.elem, ANode.desired, ANode.kids, Except.isOk]
  rfl
